import Mathlib

/-!
Verification of the randomgen bit-generator engine shell, centred on the
Philox engine (`randomgen/philox.pyx`) with a minimal model of the DSFMT
engine for the jump-validation comparison.

The engine shell (seeding, state get/set, jump/jumped/advance, the four
output entry points) is translated from the Cython source.  The C-level
primitives that the source treats as external (the Philox round function,
the buffered output functions, `object_to_int`, `int_to_array`, `wrap_int`,
`check_state_array`, `seed_by_array`, `random_entropy`, `dsfmt_jump_n`) are
either taken as explicit function parameters (the round function, the seed
expander, the entropy words, the DSFMT polynomial jump) or modelled from
the specification's description, as marked on each definition.

Machine words are represented as `Nat` with explicit `% 2^w` arithmetic;
fallible operations return `Except String`; operations that in Python can
raise after having written some fields are modelled as `Trace` functions
returning the state as it is at the moment of the raise.
-/

set_option maxRecDepth 100000

deriving instance DecidableEq for Except

/-- Dispatch variants of the Philox engine: the four
(number, width) specialisations whose function tables
`_setup_generator` can install. -/
inductive PhiloxVariant where
  | v2x32 : PhiloxVariant
  | v4x32 : PhiloxVariant
  | v2x64 : PhiloxVariant
  | v4x64 : PhiloxVariant
deriving DecidableEq

/-- Number `N` of output words per block for a dispatch variant. -/
def PhiloxVariant.num : PhiloxVariant → Nat
  | .v2x32 => 2
  | .v4x32 => 4
  | .v2x64 => 2
  | .v4x64 => 4

/-- Word width `W` in bits for a dispatch variant. -/
def PhiloxVariant.wid : PhiloxVariant → Nat
  | .v2x32 => 32
  | .v4x32 => 32
  | .v2x64 => 64
  | .v4x64 => 64

/-- Resolution of a `(number, width)` pair to a dispatch variant; mirrors
the four-way branch of `Philox._setup_generator`, which has no branch for
any other pair. -/
def philoxResolve (n w : Nat) : Option PhiloxVariant :=
  if n = 4 ∧ w = 64 then some .v4x64
  else if n = 2 ∧ w = 64 then some .v2x64
  else if n = 4 ∧ w = 32 then some .v4x32
  else if n = 2 ∧ w = 32 then some .v2x32
  else none

/-- The Philox instance state: the fields of `philox_all_t` together with
the instance attributes `n`, `w` and the resolved dispatch table.  `ctr`
has `n` words, `key` has `n / 2` words, `buffer` holds the `n` words the
state getter exposes; `buffer_pos = 4` (`PHILOX_BUFFER_SIZE`) is the
empty-buffer sentinel set by `_reset_state_variables`.  `variant` is the
function table installed by `_setup_generator`; `none` models the
not-yet-initialised table of a freshly allocated struct. -/
structure PhiloxState where
  n : Nat
  w : Nat
  variant : Option PhiloxVariant
  ctr : List Nat
  key : List Nat
  buffer : List Nat
  buffer_pos : Nat
  has_uint32 : Nat
  uinteger : Nat
deriving DecidableEq

/-- The state dictionary produced and consumed by the `state` property.
`number` and `width` are optional because the setter supplies defaults for
them (`value.get('number', 4)`, `value.get('width', 64)`); the remaining
keys are accessed unconditionally by the setter. -/
structure PhiloxDict where
  bit_generator : String
  counter : List Nat
  key : List Nat
  buffer : List Nat
  buffer_pos : Nat
  has_uint32 : Nat
  uinteger : Nat
  number : Option Nat
  width : Option Nat
deriving DecidableEq

/-- Value of a little-endian array of `w`-bit words, the inverse of the
documented relation `array[i] = (value // 2**(w*i)) % 2**w`. -/
def philoxWordsToNat (w : Nat) : List Nat → Nat
  | [] => 0
  | x :: xs => x % 2 ^ w + 2 ^ w * philoxWordsToNat w xs

/-- Little-endian decomposition of `v` into `len` words of `w` bits, the
documented relation `array[i] = (value // 2**(w*i)) % 2**w`. -/
def philoxToWords (w len v : Nat) : List Nat :=
  (List.range len).map (fun i => v / 2 ^ (w * i) % 2 ^ w)

/-- Floor of the base-2 logarithm computed by fuelled structural
recursion, so that it evaluates by kernel reduction; `fuel = v` suffices
since the logarithm of `v` is at most `v`. -/
def philoxLog2 (fuel v : Nat) : Nat :=
  match fuel with
  | 0 => 0
  | fuel + 1 => if v < 2 then 0 else philoxLog2 fuel (v / 2) + 1

/-- Modelled from the spec: `int_to_array` with `bits=None` (the seed
path), which imposes no upper bound and produces the minimal number of
64-bit words (at least one). -/
def philoxMinWords64 (v : Nat) : List Nat :=
  philoxToWords 64 (philoxLog2 v v / 64 + 1) v

/-- Reinterpretation of an array of 64-bit words as width-`w` words
(numpy `view`): the identity at `w = 64`, a little-endian split of each
word into two 32-bit halves otherwise. -/
def philoxViewFrom64 (w : Nat) (xs : List Nat) : List Nat :=
  if w = 64 then xs
  else xs.flatMap (fun x => [x % 2 ^ 32, x / 2 ^ 32 % 2 ^ 32])

/-- Pairing of adjacent 32-bit words into 64-bit words, little-endian. -/
def philoxPair32 : List Nat → List Nat
  | [] => []
  | [x] => [x]
  | x :: y :: rest => (x % 2 ^ 32 + 2 ^ 32 * (y % 2 ^ 32)) :: philoxPair32 rest

/-- Reinterpretation of an array of 32-bit words as width-`w` words
(numpy `view`): the identity at `w = 32`, little-endian pairing into
64-bit words otherwise. -/
def philoxViewFrom32 (w : Nat) (xs : List Nat) : List Nat :=
  if w = 32 then xs else philoxPair32 xs

/-- Modelled from the spec: `object_to_int` from `randomgen.common`
(not under `src/`), which coerces a scalar seed/key/counter argument and
validates it against `[0, 2^bits)`, raising a `ValueError` otherwise;
`None` passes through. -/
def philoxObjectToInt (x : Option Int) (bits : Nat) (name : String) :
    Except String (Option Nat) :=
  match x with
  | none => .ok none
  | some v =>
      if v < 0 then .error (name ++ " out of range")
      else if (2 ^ bits : Int) ≤ v then .error (name ++ " out of range")
      else .ok (some v.toNat)

/-- Modelled from the spec: `int_to_array` from `randomgen.common`
(not under `src/`), which validates `value < 2^bits` and expands the value
to `bits / width` little-endian `width`-bit words via
`array[i] = (value // 2**(width*i)) % 2**width`; with `bits = None` no
bound is imposed and the minimal number of words is produced. -/
def philoxIntToArray (v : Nat) (bits : Option Nat) (w : Nat)
    (name : String) : Except String (List Nat) :=
  match bits with
  | some b =>
      if v < 2 ^ b then .ok (philoxToWords w (b / w) v)
      else .error (name ++ " out of range")
  | none => .ok (philoxMinWords64 v)

/-- Modelled from the spec: `wrap_int` from `randomgen.common`
(not under `src/`), the Euclidean remainder of an arbitrary integer
modulo `2^bits`. -/
def philoxWrapInt (x : Int) (bits : Nat) : Nat :=
  (x % (2 : Int) ^ bits).toNat

/-- Modelled from the spec: `check_state_array` from `randomgen.common`
(not under `src/`), which validates the length of a state-dict array and
that every element fits in `w` bits, raising a `ValueError` otherwise. -/
def philoxCheckStateArray (arr : List Nat) (len w : Nat) (name : String) :
    Except String (List Nat) :=
  if arr.length = len ∧ ∀ x ∈ arr, x < 2 ^ w then .ok arr
  else .error (name ++ " state array invalid")

/-- Translation of `Philox._reset_state_variables`: zero the leftover-half
fields, set the buffer cursor to the empty sentinel `PHILOX_BUFFER_SIZE`
and zero the buffer. -/
def philoxResetStateVariables (st : PhiloxState) : PhiloxState :=
  { st with uinteger := 0, has_uint32 := 0, buffer_pos := 4,
            buffer := List.replicate st.n 0 }

/-- Translation of the `state` property getter: package the counter, key
and buffer words together with the cursor, leftover-half fields and the
`(number, width)` configuration under the class-name tag. -/
def philoxGetState (st : PhiloxState) : PhiloxDict :=
  { bit_generator := "Philox"
    counter := st.ctr
    key := st.key
    buffer := st.buffer
    buffer_pos := st.buffer_pos
    has_uint32 := st.has_uint32
    uinteger := st.uinteger
    number := some st.n
    width := some st.w }

/-- Translation of the `state` property setter, kept at the granularity of
the source's mutation order: the tag is checked first; then `number`,
`width` (defaulting to 4 and 64) and the dispatch table are written; then
the three arrays are validated; only then are the payload fields written.
The returned pair carries the state as it is at the moment a `ValueError`
is raised, so partial mutation is observable in the model exactly where it
is in the source.  `_setup_generator` leaves the previous table in place
when `(number, width)` resolves to no variant, since it has no fallback
branch. -/
def philoxSetStateTrace (t : PhiloxState) (d : PhiloxDict) :
    PhiloxState × Option String :=
  if d.bit_generator ≠ "Philox" then
    (t, some "state must be for a Philox PRNG")
  else
    let n := d.number.getD 4
    let w := d.width.getD 64
    let t1 : PhiloxState :=
      { t with n := n, w := w,
               variant := (philoxResolve n w).orElse (fun _ => t.variant) }
    match philoxCheckStateArray d.counter n w "counter",
          philoxCheckStateArray d.key (n / 2) w "key",
          philoxCheckStateArray d.buffer n w "buffer" with
    | .error e, _, _ => (t1, some e)
    | .ok _, .error e, _ => (t1, some e)
    | .ok _, .ok _, .error e => (t1, some e)
    | .ok ctr, .ok key, .ok buf =>
        ({ t1 with ctr := ctr, key := key, buffer := buf,
                   buffer_pos := d.buffer_pos,
                   has_uint32 := d.has_uint32,
                   uinteger := d.uinteger }, none)

/-- The `state` setter as a fallible state transformer. -/
def philoxSetState (t : PhiloxState) (d : PhiloxDict) :
    Except String PhiloxState :=
  match philoxSetStateTrace t d with
  | (s, none) => .ok s
  | (_, some e) => .error e

/-- Translation of `Philox.seed`, kept at the granularity of the source's
mutation order: `object_to_int` validates the three scalar arguments and
the seed/key exclusivity check runs before anything is written; the key
words are derived (from the `key` argument, from the seed run through the
`seed_by_array` expander `sba`, or from the `entropy` words when both are
absent) and written; then the counter is expanded and written; finally
`_reset_state_variables` runs.  The returned pair carries the state as it
is at the moment a `ValueError` is raised.  `sba` stands for the external
SplitMix-style `seed_by_array` expander and `entropy` for the words
`random_entropy` returns, both outside `src/`. -/
def philoxSeedTrace (sba : List Nat → Nat → List Nat) (entropy : List Nat)
    (seed counter key : Option Int) (st : PhiloxState) :
    PhiloxState × Option String :=
  match philoxObjectToInt seed (st.n * st.w / 2) "seed" with
  | .error e => (st, some e)
  | .ok seedI =>
  match philoxObjectToInt key (st.n / 2 * st.w) "key" with
  | .error e => (st, some e)
  | .ok keyI =>
  match philoxObjectToInt counter (st.n * st.w) "counter" with
  | .error e => (st, some e)
  | .ok counterI =>
  if seedI.isSome ∧ keyI.isSome then
    (st, some "seed and key cannot be both used")
  else
    let u32size := (st.n / 2) * (st.w / 32)
    let keyRes : Except String (List Nat) :=
      match keyI with
      | some k => philoxIntToArray k (some (st.n / 2 * st.w)) st.w "key"
      | none =>
        match seedI with
        | some s =>
            .ok (philoxViewFrom64 st.w
                  (sba (philoxMinWords64 s) (max (u32size / 2) 1)))
        | none => .ok (philoxViewFrom32 st.w entropy)
    match keyRes with
    | .error e => (st, some e)
    | .ok kws =>
      let st1 : PhiloxState :=
        { st with key := (List.range (st.n / 2)).map (fun i => kws.getD i 0) }
      match philoxIntToArray (counterI.getD 0) (some (st.n * st.w)) st.w
              "counter" with
      | .error e => (st1, some e)
      | .ok cws =>
          (philoxResetStateVariables { st1 with ctr := cws }, none)

/-- `Philox.seed` as a fallible state transformer. -/
def philoxSeed (sba : List Nat → Nat → List Nat) (entropy : List Nat)
    (seed counter key : Option Int) (st : PhiloxState) :
    Except String PhiloxState :=
  match philoxSeedTrace sba entropy seed counter key st with
  | (s, none) => .ok s
  | (_, some e) => .error e

/-- Translation of `Philox.__init__`: validate `number` and `width`, start
from the zero-initialised struct, seed, then install the dispatch table
via `_setup_generator`. -/
def philoxNew (sba : List Nat → Nat → List Nat) (entropy : List Nat)
    (seed counter key : Option Int) (number width : Nat) :
    Except String PhiloxState :=
  if number ≠ 2 ∧ number ≠ 4 then .error "number must be either 2 or 4"
  else if width ≠ 32 ∧ width ≠ 64 then .error "width must be either 32 or 64"
  else
    let st0 : PhiloxState :=
      { n := number, w := width, variant := none
        ctr := List.replicate number 0
        key := List.replicate (number / 2) 0
        buffer := List.replicate number 0
        buffer_pos := 0, has_uint32 := 0, uinteger := 0 }
    match philoxSeedTrace sba entropy seed counter key st0 with
    | (_, some e) => .error e
    | (st1, none) =>
        .ok { st1 with
                variant := (philoxResolve number width).orElse
                             (fun _ => st1.variant) }

/-- Counter value encoded by the `ctr` word array. -/
def philoxCtrVal (st : PhiloxState) : Nat :=
  philoxWordsToNat st.w st.ctr

/-- Modelled from the spec: the C `philoxNxW_advance` functions
(not under `src/`).  The draw-space position of a state is
`(ctr + e) * n + off`, where `e = 1`/`off = 0` on an empty buffer
(cursor at or past capacity, so the next pull regenerates a block for the
incremented counter) and `e = 0`/`off = cursor` mid-block.  Advancing by
`delta` draws moves this position modulo `n * 2^(n*w)`; landing on a block
boundary is represented as an empty buffer for the previous counter, and
landing mid-block regenerates the buffer from the core transform for the
landing counter, preserving draw continuity. -/
def philoxCAdvance (core : Nat → Nat → List Nat → List Nat → List Nat)
    (delta : Nat) (st : PhiloxState) : PhiloxState :=
  let n := st.n
  let w := st.w
  let sz := 2 ^ (n * w)
  let e := if n ≤ st.buffer_pos then 1 else 0
  let off := if n ≤ st.buffer_pos then 0 else st.buffer_pos
  let p := ((philoxCtrVal st + e) * n + off + delta) % (n * sz)
  if p % n = 0 then
    { st with ctr := philoxToWords w n ((p / n + sz - 1) % sz),
              buffer_pos := 4 }
  else
    let c := p / n % sz
    { st with ctr := philoxToWords w n c,
              buffer := core n w st.key (philoxToWords w n c),
              buffer_pos := p % n }

/-- Translation of `Philox.advance`: a missing `counter` flag defaults to
`True` (after a `FutureWarning`); `delta = 0` returns immediately; in
counter mode `delta` is multiplied by `n`; the result is wrapped by
`wrap_int` modulo `2^(n*w + n/2)` and handed to the C advance; afterwards
the leftover-half fields are zeroed and, in counter mode,
`_reset_state_variables` runs. -/
def philoxAdvance (core : Nat → Nat → List Nat → List Nat → List Nat)
    (delta : Int) (counter : Option Bool) (st : PhiloxState) : PhiloxState :=
  let cflag := counter.getD true
  if delta = 0 then st
  else
    let d : Int := if cflag then delta * st.n else delta
    let dw := philoxWrapInt d (st.n * st.w + st.n / 2)
    let st1 := philoxCAdvance core dw st
    let st2 := { st1 with uinteger := 0, has_uint32 := 0 }
    if cflag then philoxResetStateVariables st2 else st2

/-- Translation of `Philox.jump_inplace`: advance in counter mode by
`iter * 2^((w*n)/2)`. -/
def philoxJumpInplace (core : Nat → Nat → List Nat → List Nat → List Nat)
    (iter : Int) (st : PhiloxState) : PhiloxState :=
  philoxAdvance core (iter * 2 ^ ((st.w * st.n) / 2)) (some true) st

/-- Translation of `Philox.jump`: emits a `DeprecationWarning` (a
non-fatal diagnostic, not modelled) and then behaves exactly as
`jump_inplace`, returning the mutated instance. -/
def philoxJump (core : Nat → Nat → List Nat → List Nat → List Nat)
    (iter : Int) (st : PhiloxState) : PhiloxState :=
  philoxJumpInplace core iter st

/-- Translation of `Philox.jumped`: construct a fresh default instance
(`self.__class__()`, seeded from entropy), copy the caller's snapshot into
it through the state setter, and jump the copy in place.  The caller's
state is read only through the state getter and is never written. -/
def philoxJumped (sba : List Nat → Nat → List Nat) (entropy : List Nat)
    (core : Nat → Nat → List Nat → List Nat → List Nat)
    (iter : Int) (st : PhiloxState) : Except String PhiloxState :=
  match philoxNew sba entropy none none none 4 64 with
  | .error e => .error e
  | .ok fresh =>
      match philoxSetState fresh (philoxGetState st) with
      | .error e => .error e
      | .ok copy => .ok (philoxJumpInplace core iter copy)

/-- Modelled from the spec: the C `philoxNxW_next` raw pull
(not under `src/`).  Serve the word under the cursor when the buffer still
holds one; otherwise increment the counter, regenerate the block from the
core transform and serve its first word.  `core n w key ctr` stands for
the black-box Philox round function producing the `n`-word block for a
counter/key pair. -/
def philoxNextRawV (core : Nat → Nat → List Nat → List Nat → List Nat)
    (v : PhiloxVariant) (st : PhiloxState) : Nat × PhiloxState :=
  let n := v.num
  let w := v.wid
  if st.buffer_pos < n then
    (st.buffer.getD st.buffer_pos 0, { st with buffer_pos := st.buffer_pos + 1 })
  else
    let c := (philoxCtrVal st + 1) % 2 ^ (n * w)
    let ctr := philoxToWords w n c
    let buf := core n w st.key ctr
    (buf.getD 0 0, { st with ctr := ctr, buffer := buf, buffer_pos := 1 })

/-- Modelled from the spec: `next_uint64` — the raw word itself for the
64-bit variants, two raw pulls assembled little-endian for the 32-bit
variants. -/
def philoxNextU64V (core : Nat → Nat → List Nat → List Nat → List Nat)
    (v : PhiloxVariant) (st : PhiloxState) : Nat × PhiloxState :=
  if v.wid = 64 then philoxNextRawV core v st
  else
    let r1 := philoxNextRawV core v st
    let r2 := philoxNextRawV core v r1.2
    (r1.1 % 2 ^ 32 + 2 ^ 32 * (r2.1 % 2 ^ 32), r2.2)

/-- Modelled from the spec: `next_uint32` — the raw word itself for the
32-bit variants; for the 64-bit variants a cached leftover half is served
first and otherwise a fresh 64-bit word is split, the low half returned
and the high half cached. -/
def philoxNextU32V (core : Nat → Nat → List Nat → List Nat → List Nat)
    (v : PhiloxVariant) (st : PhiloxState) : Nat × PhiloxState :=
  if v.wid = 32 then philoxNextRawV core v st
  else if st.has_uint32 ≠ 0 then
    (st.uinteger, { st with has_uint32 := 0 })
  else
    let r := philoxNextRawV core v st
    (r.1 % 2 ^ 32,
     { r.2 with has_uint32 := 1, uinteger := r.1 / 2 ^ 32 % 2 ^ 32 })

/-- Modelled from the spec: `next_double` — a double in `[0, 1)` built
from 53 random bits (one shifted 64-bit pull, or two 32-bit pulls giving
a 26-bit and 27-bit part).  The double equals this integer numerator
divided by `2^53`; the numerator represents it exactly. -/
def philoxNextDblV (core : Nat → Nat → List Nat → List Nat → List Nat)
    (v : PhiloxVariant) (st : PhiloxState) : Nat × PhiloxState :=
  if v.wid = 64 then
    let r := philoxNextRawV core v st
    (r.1 / 2 ^ 11, r.2)
  else
    let r1 := philoxNextRawV core v st
    let r2 := philoxNextRawV core v r1.2
    ((r1.1 % 2 ^ 32 / 2 ^ 5) * 2 ^ 26 + r2.1 % 2 ^ 32 / 2 ^ 6, r2.2)

/-- The four output entry points every engine exposes. -/
inductive PhiloxEntry where
  | raw : PhiloxEntry
  | u32 : PhiloxEntry
  | u64 : PhiloxEntry
  | dbl : PhiloxEntry
deriving DecidableEq

/-- One output step through the installed dispatch table: the entry point
runs the specialisation recorded in `variant`; with no table installed
(never the case after `__init__`) the state is returned unchanged. -/
def philoxNext (core : Nat → Nat → List Nat → List Nat → List Nat)
    (ep : PhiloxEntry) (st : PhiloxState) : Nat × PhiloxState :=
  match st.variant with
  | none => (0, st)
  | some v =>
    match ep with
    | .raw => philoxNextRawV core v st
    | .u32 => philoxNextU32V core v st
    | .u64 => philoxNextU64V core v st
    | .dbl => philoxNextDblV core v st

/-- The list of `m` successive outputs drawn through one entry point. -/
def philoxDrawN (core : Nat → Nat → List Nat → List Nat → List Nat)
    (ep : PhiloxEntry) : Nat → PhiloxState → List Nat
  | 0, _ => []
  | m + 1, st =>
      let r := philoxNext core ep st
      r.1 :: philoxDrawN core ep m r.2

/-- Well-formedness of a Philox instance as established by `__init__` and
maintained by every engine operation: a supported `(number, width)` pair,
a dispatch table resolved for it, arrays of the configured lengths and
elements within the word width. -/
def PhiloxWF (st : PhiloxState) : Prop :=
  (st.n = 2 ∨ st.n = 4) ∧ (st.w = 32 ∨ st.w = 64) ∧
  st.variant = philoxResolve st.n st.w ∧
  st.ctr.length = st.n ∧ st.key.length = st.n / 2 ∧
  st.buffer.length = st.n ∧
  (∀ x ∈ st.ctr, x < 2 ^ st.w) ∧ (∀ x ∈ st.key, x < 2 ^ st.w) ∧
  (∀ x ∈ st.buffer, x < 2 ^ st.w)

instance (st : PhiloxState) : Decidable (PhiloxWF st) := by
  unfold PhiloxWF; infer_instance

/-- The contract the black-box core transform satisfies by construction
in C: a block of exactly `n` words, each within the word width. -/
def PhiloxCoreOK (core : Nat → Nat → List Nat → List Nat → List Nat) :
    Prop :=
  ∀ n w key ctr, (core n w key ctr).length = n ∧
    ∀ x ∈ core n w key ctr, x < 2 ^ w

/-- Number of 64-bit halves of the DSFMT uniform buffer
(`DSFMT_N64 = 2 * 191`). -/
def dsfmtN64 : Nat := 382

/-- The DSFMT instance state (`s_dsfmt_state` with its `dsfmt_t` block):
the 384-word status array with its index, the leftover-half fields, the
buffered uniforms (opaque here) and the buffer cursor. -/
structure DSFMTState where
  status : List Nat
  idx : Nat
  has_uint32 : Nat
  uinteger : Nat
  buffered_uniforms : List Nat
  buffer_loc : Nat
deriving DecidableEq

/-- Translation of `DSFMT.jump_inplace`: a negative `iter` raises a
`ValueError`; otherwise the external polynomial jump `dsfmt_jump_n`
(modelled as `iter` applications of the single characteristic-constant
jump `dj`, per the spec) runs and the buffer cursor is reset to the
empty sentinel. -/
def dsfmtJumpInplace (dj : List Nat × Nat → List Nat × Nat) (iter : Int)
    (st : DSFMTState) : Except String DSFMTState :=
  if iter < 0 then .error "iter must be positive"
  else
    let p := dj^[iter.toNat] (st.status, st.idx)
    .ok { st with status := p.1, idx := p.2, buffer_loc := dsfmtN64 }

/-- A concrete stand-in for the black-box Philox round function, used to
evaluate the model on witnesses: it mixes the counter, key and position
while keeping every word inside the width. -/
def testCore (n w : Nat) (key ctr : List Nat) : List Nat :=
  (List.range n).map (fun i => (ctr.getD i 0 + key.getD 0 0 + 3 * i + 1) % 2 ^ w)

/-- A concrete stand-in for the `seed_by_array` expander, used to evaluate
the model on witnesses. -/
def testSba (a : List Nat) (k : Nat) : List Nat :=
  (List.range k).map (fun i => (a.getD 0 0 + 2 * i + 7) % 2 ^ 64)

/-- Concrete entropy words used to evaluate the model on witnesses. -/
def testEntropy : List Nat := [17, 23, 29, 31]

/-- A well-formed 4x64 instance state mid-buffer. -/
def testState64 : PhiloxState :=
  { n := 4, w := 64, variant := some .v4x64
    ctr := [1, 2, 3, 4], key := [9, 8], buffer := [5, 6, 7, 8]
    buffer_pos := 2, has_uint32 := 0, uinteger := 0 }

/-- A well-formed freshly seeded 2x32 instance state. -/
def testState32 : PhiloxState :=
  { n := 2, w := 32, variant := some .v2x32
    ctr := [0, 0], key := [7], buffer := [0, 0]
    buffer_pos := 4, has_uint32 := 0, uinteger := 0 }

/-- A well-formed 4x64 instance state holding a cached leftover half. -/
def testStateH : PhiloxState :=
  { n := 4, w := 64, variant := some .v4x64
    ctr := [0, 0, 0, 0], key := [0, 0], buffer := [0, 0, 0, 0]
    buffer_pos := 4, has_uint32 := 1, uinteger := 99 }

/-- A concrete DSFMT state for the jump-validation theorems. -/
def testDState : DSFMTState :=
  { status := List.replicate 384 0, idx := 382, has_uint32 := 0,
    uinteger := 0, buffered_uniforms := List.replicate 382 0,
    buffer_loc := 382 }

/-- The generator obtained by seeding a default 4x64 instance with the
scalar seed 5 under the concrete test expander. -/
def testSeeded : PhiloxState :=
  match philoxNew testSba testEntropy (some 5) none none 4 64 with
  | .ok g => g
  | .error _ => testState64

/-- The state obtained by re-seeding the mid-buffer 4x64 state with the
scalar seed 5. -/
def testReseeded : PhiloxState :=
  match philoxSeed testSba testEntropy (some 5) none none testState64 with
  | .ok g => g
  | .error _ => testState64

/-- The state obtained by restoring the leftover-half snapshot onto the
mid-buffer 4x64 instance. -/
def testRestoredH : PhiloxState :=
  match philoxSetState testState64 (philoxGetState testStateH) with
  | .ok g => g
  | .error _ => testState64

/-- The state obtained by restoring the 4x64 snapshot with `number` and
`width` omitted onto the 2x32 instance. -/
def testRestoredDefaults : PhiloxState :=
  match philoxSetState testState32
      { philoxGetState testState64 with number := none, width := none } with
  | .ok g => g
  | .error _ => testState64

/-- A state dictionary with a correct tag and an out-of-range counter
word, which the setter rejects only after having written `number`,
`width` and the dispatch table. -/
def testBadDict : PhiloxDict :=
  { bit_generator := "Philox", counter := [2 ^ 64, 0, 0, 0], key := [0, 0],
    buffer := [0, 0, 0, 0], buffer_pos := 4, has_uint32 := 0, uinteger := 0,
    number := some 4, width := some 64 }

/-- A state dictionary with a correct tag, `number = 3` and `width`
omitted, whose arrays nevertheless pass the length/width checks, so the
setter succeeds while `_setup_generator` has no branch for `(3, 64)` and
leaves the previous dispatch table installed. -/
def testDict3 : PhiloxDict :=
  { bit_generator := "Philox", counter := [1, 2, 3], key := [4],
    buffer := [5, 6, 7], buffer_pos := 4, has_uint32 := 0, uinteger := 0,
    number := some 3, width := none }

/-- A state dictionary omitting both `number` and `width`, taken from the
4x64 snapshot. -/
def testDictDefaults : PhiloxDict :=
  { philoxGetState testState64 with number := none, width := none }

/-- Reducing the left factor of a product modulo `M` does not change the
product's residue. -/
theorem philoxIntEmodMulLeft (a b M : Int) : a % M * b % M = a * b % M := by
  rw [Int.mul_emod, Int.emod_emod_of_dvd _ dvd_rfl, ← Int.mul_emod]

/-- Resolution is total on the supported `(number, width)` pairs. -/
theorem philoxResolve_total (n w : Nat) (hn : n = 2 ∨ n = 4)
    (hw : w = 32 ∨ w = 64) : ∃ v, philoxResolve n w = some v := by
  rcases hn with rfl | rfl <;> rcases hw with rfl | rfl <;> exact ⟨_, rfl⟩

/-- A resolved dispatch variant carries exactly the `(number, width)` pair
it was resolved for. -/
theorem philoxResolve_spec (n w : Nat) (v : PhiloxVariant)
    (h : philoxResolve n w = some v) : v.num = n ∧ v.wid = w := by
  unfold philoxResolve at h
  split_ifs at h with h1 h2 h3 h4 <;>
    (injection h with h5
     subst h5
     simp_all [PhiloxVariant.num, PhiloxVariant.wid])

/-- Word decomposition produces the requested number of words. -/
theorem philoxToWords_length (w len v : Nat) :
    (philoxToWords w len v).length = len := by
  simp [philoxToWords]

/-- Every decomposed word is within the word width. -/
theorem philoxToWords_lt (w len v : Nat) :
    ∀ x ∈ philoxToWords w len v, x < 2 ^ w := by
  intro x hx
  simp only [philoxToWords, List.mem_map] at hx
  obtain ⟨i, _, rfl⟩ := hx
  exact Nat.mod_lt _ (by positivity)

/-- One raw pull preserves the state invariant and leaves the
configuration (`n`, `w`, dispatch table, key) unchanged. -/
theorem philoxNextRawV_preserves_WF
    (core : Nat → Nat → List Nat → List Nat → List Nat)
    (hc : PhiloxCoreOK core) (v : PhiloxVariant) (st : PhiloxState)
    (h : PhiloxWF st) (hv : st.variant = some v) :
    PhiloxWF (philoxNextRawV core v st).2 ∧
    (philoxNextRawV core v st).2.variant = st.variant ∧
    (philoxNextRawV core v st).2.n = st.n ∧
    (philoxNextRawV core v st).2.w = st.w := by
  obtain ⟨hn, hw, hva, hcl, hkl, hbl, hcb, hkb, hbb⟩ := h
  obtain ⟨hnum, hwid⟩ := philoxResolve_spec st.n st.w v (hv ▸ hva).symm
  unfold philoxNextRawV
  dsimp only []
  rw [hnum, hwid]
  split
  · exact ⟨⟨hn, hw, hva, hcl, hkl, hbl, hcb, hkb, hbb⟩, rfl, rfl, rfl⟩
  · refine ⟨⟨hn, hw, hva, philoxToWords_length _ _ _, hkl,
      (hc st.n st.w st.key _).1, philoxToWords_lt _ _ _, hkb,
      (hc st.n st.w st.key _).2⟩, rfl, rfl, rfl⟩

/-- Every output entry point preserves the state invariant: serving from
the buffer, refilling it through the core transform, and caching or
consuming a leftover half all keep the arrays well-formed and the
configuration fixed. -/
theorem philoxNext_preserves_WF
    (core : Nat → Nat → List Nat → List Nat → List Nat)
    (hc : PhiloxCoreOK core) (ep : PhiloxEntry) (st : PhiloxState)
    (h : PhiloxWF st) : PhiloxWF (philoxNext core ep st).2 := by
  by_cases hv0 : st.variant = none
  · simpa [philoxNext, hv0] using h
  · obtain ⟨v, hv⟩ := Option.ne_none_iff_exists'.mp hv0
    have hr1 := philoxNextRawV_preserves_WF core hc v st h hv
    have hr2 := philoxNextRawV_preserves_WF core hc v
      (philoxNextRawV core v st).2 hr1.1 (hr1.2.1.trans hv)
    cases ep with
    | raw => simpa [philoxNext, hv] using hr1.1
    | u64 =>
      by_cases hwid : v.wid = 64
      · simpa [philoxNext, hv, philoxNextU64V, hwid] using hr1.1
      · simpa [philoxNext, hv, philoxNextU64V, hwid] using hr2.1
    | u32 =>
      by_cases hwid : v.wid = 32
      · simpa [philoxNext, hv, philoxNextU32V, hwid] using hr1.1
      · have hg : PhiloxWF (philoxNextU32V core v st).2 := by
          unfold philoxNextU32V
          rw [if_neg hwid]
          by_cases hh : st.has_uint32 ≠ 0
          · rw [if_pos hh]
            exact h
          · rw [if_neg hh]
            exact hr1.1
        simpa [philoxNext, hv] using hg
    | dbl =>
      by_cases hwid : v.wid = 64
      · simpa [philoxNext, hv, philoxNextDblV, hwid] using hr1.1
      · simpa [philoxNext, hv, philoxNextDblV, hwid] using hr2.1

/-- `advance` preserves the state invariant: the wrapped counter words
and any regenerated buffer block stay within the configured lengths and
word width, and the configuration is unchanged. -/
theorem philoxAdvance_preserves_WF
    (core : Nat → Nat → List Nat → List Nat → List Nat)
    (hc : PhiloxCoreOK core) (delta : Int) (flag : Option Bool)
    (st : PhiloxState) (h : PhiloxWF st) :
    PhiloxWF (philoxAdvance core delta flag st) := by
  obtain ⟨hn, hw, hva, hcl, hkl, hbl, hcb, hkb, hbb⟩ := h
  have hrep : ∀ m ww : Nat, ∀ x ∈ List.replicate m 0, x < 2 ^ ww := by
    intro m ww x hx
    rw [List.eq_of_mem_replicate hx]
    positivity
  have hca : ∀ dw : Nat, PhiloxWF (philoxCAdvance core dw st) := by
    intro dw
    unfold philoxCAdvance
    dsimp only []
    repeat' split
    all_goals first
      | exact ⟨hn, hw, hva, philoxToWords_length _ _ _, hkl, hbl,
          philoxToWords_lt _ _ _, hkb, hbb⟩
      | exact ⟨hn, hw, hva, philoxToWords_length _ _ _, hkl,
          (hc st.n st.w st.key _).1, philoxToWords_lt _ _ _, hkb,
          (hc st.n st.w st.key _).2⟩
  unfold philoxAdvance
  dsimp only []
  split
  · exact ⟨hn, hw, hva, hcl, hkl, hbl, hcb, hkb, hbb⟩
  · split
    · obtain ⟨hn1, hw1, hva1, hcl1, hkl1, hbl1, hcb1, hkb1, hbb1⟩ :=
        hca (philoxWrapInt (delta * st.n) (st.n * st.w + st.n / 2))
      exact ⟨hn1, hw1, hva1, hcl1, hkl1, List.length_replicate _ _,
        hcb1, hkb1, hrep _ _⟩
    · obtain ⟨hn1, hw1, hva1, hcl1, hkl1, hbl1, hcb1, hkb1, hbb1⟩ :=
        hca (philoxWrapInt delta (st.n * st.w + st.n / 2))
      exact ⟨hn1, hw1, hva1, hcl1, hkl1, hbl1, hcb1, hkb1, hbb1⟩

/-- Restoring the snapshot taken from a well-formed state reproduces that
state exactly, whatever instance the setter runs on: the setter writes
every field from the dictionary, and the getter's dictionary carries every
field. -/
theorem philoxSetState_getState (t st : PhiloxState) (h : PhiloxWF st) :
    philoxSetState t (philoxGetState st) = Except.ok st := by
  obtain ⟨hn, hw, hv, hcl, hkl, hbl, hcb, hkb, hbb⟩ := h
  obtain ⟨vv, hvv⟩ := philoxResolve_total st.n st.w hn hw
  cases st with
  | mk n w variant ctr key buffer pos has uint =>
    simp only at hv hcl hkl hbl hcb hkb hbb hvv
    simp [philoxSetState, philoxSetStateTrace, philoxGetState,
          philoxCheckStateArray, hvv, hv, hcl, hkl, hbl, hcb, hkb, hbb,
          Option.orElse]
    rw [if_pos hcb, if_pos hkb, if_pos hbb]

/-- Construction with all defaults always succeeds: the default
`(number, width) = (4, 64)` passes validation and the entropy-seeding path
has no failing step. -/
theorem philoxNew_default_isOk (sba : List Nat → Nat → List Nat)
    (entropy : List Nat) :
    ∃ g, philoxNew sba entropy none none none 4 64 = Except.ok g := by
  have h2 : (0 : ℕ) < 2 ^ (4 * 64) := by positivity
  simp [philoxNew, philoxSeedTrace, philoxObjectToInt, philoxIntToArray,
        philoxResetStateVariables, h2]

/-- The seed value drawn at construction is in range, `valueError` is
never raised, and the resulting generator is a function of the arguments
alone, so two constructions from identical arguments coincide. -/
theorem philoxNew_deterministic (sba : List Nat → Nat → List Nat)
    (entropy : List Nat) (seed counter key : Option Int) (number width : Nat)
    (g1 g2 : PhiloxState)
    (h1 : philoxNew sba entropy seed counter key number width = Except.ok g1)
    (h2 : philoxNew sba entropy seed counter key number width = Except.ok g2) :
    g1 = g2 := by
  have h := h1.symm.trans h2
  simpa using h

/-- C1: for every reachable (well-formed) generator state, capturing the
state via the state getter and restoring it via the state setter succeeds
and reproduces the state exactly, so drawing `M` further outputs through
any of the four output entry points yields exactly the outputs that would
have been drawn without the capture/restore round-trip. -/
theorem philox_state_roundtrip_reproduces_outputs
    (core : Nat → Nat → List Nat → List Nat → List Nat)
    (t st : PhiloxState) (h : PhiloxWF st) (ep : PhiloxEntry) (M : Nat) :
    Except.map (philoxDrawN core ep M) (philoxSetState t (philoxGetState st))
      = Except.ok (philoxDrawN core ep M st) ∧
    philoxSetState t (philoxGetState st) = Except.ok st := by
  have hrt := philoxSetState_getState t st h
  rw [hrt]
  exact ⟨rfl, rfl⟩

/-- Concrete round-trip instance: capturing and restoring the mid-buffer
4x64 state and drawing three 32-bit outputs matches the direct draw. -/
theorem philox_state_roundtrip_reproduces_outputs_witness :
    Except.map (philoxDrawN testCore .u32 3)
        (philoxSetState testState32 (philoxGetState testState64))
      = Except.ok (philoxDrawN testCore .u32 3 testState64) ∧
    philoxSetState testState32 (philoxGetState testState64)
      = Except.ok testState64 :=
  philox_state_roundtrip_reproduces_outputs testCore testState32 testState64
    (by decide) .u32 3

/-- C2: constructing two independent instances from the same fixed seed
(and identical remaining arguments) and drawing `N` outputs from each via
`next_uint64` yields identical sequences. -/
theorem philox_seed_determinism
    (sba : List Nat → Nat → List Nat) (entropy : List Nat)
    (core : Nat → Nat → List Nat → List Nat → List Nat)
    (s : Int) (counter key : Option Int) (number width : Nat)
    (g1 g2 : PhiloxState) (N : Nat)
    (h1 : philoxNew sba entropy (some s) counter key number width
            = Except.ok g1)
    (h2 : philoxNew sba entropy (some s) counter key number width
            = Except.ok g2) :
    philoxDrawN core .u64 N g1 = philoxDrawN core .u64 N g2 := by
  rw [philoxNew_deterministic sba entropy (some s) counter key number width
        g1 g2 h1 h2]

/-- Concrete determinism instance: two constructions from seed 5 draw the
same two 64-bit outputs. -/
theorem philox_seed_determinism_witness :
    philoxDrawN testCore .u64 2 testSeeded
      = philoxDrawN testCore .u64 2 testSeeded :=
  philox_seed_determinism testSba testEntropy testCore 5 none none 4 64
    testSeeded testSeeded 2 (by decide) (by decide)

/-- C3: for non-negative `iter`, `jump_inplace`, `jump` and `jumped` all
advance the state by exactly `iter` multiples of the fixed Philox jump
constant `2^((n*w)/2)` — the state produced by `advance` with
`delta = iter * 2^((n*w)/2)` in counter mode — and the DSFMT jump applies
its characteristic polynomial jump exactly `iter` times; the stride
depends only on `iter` and the `(number, width)` configuration. -/
theorem philox_jump_stride_is_fixed
    (sba : List Nat → Nat → List Nat) (entropy : List Nat)
    (core : Nat → Nat → List Nat → List Nat → List Nat)
    (dj : List Nat × Nat → List Nat × Nat) (iter : Int)
    (st : PhiloxState) (dst : DSFMTState)
    (h : PhiloxWF st) (hi : 0 ≤ iter) :
    philoxJumpInplace core iter st
      = philoxAdvance core (iter * 2 ^ (st.n * st.w / 2)) (some true) st ∧
    philoxJump core iter st
      = philoxAdvance core (iter * 2 ^ (st.n * st.w / 2)) (some true) st ∧
    philoxJumped sba entropy core iter st
      = Except.ok
          (philoxAdvance core (iter * 2 ^ (st.n * st.w / 2)) (some true) st) ∧
    dsfmtJumpInplace dj iter dst
      = Except.ok
          { dst with status := (dj^[iter.toNat] (dst.status, dst.idx)).1,
                     idx := (dj^[iter.toNat] (dst.status, dst.idx)).2,
                     buffer_loc := dsfmtN64 } := by
  have hc : st.w * st.n = st.n * st.w := Nat.mul_comm _ _
  have hj : philoxJumpInplace core iter st
      = philoxAdvance core (iter * 2 ^ (st.n * st.w / 2)) (some true) st := by
    rw [philoxJumpInplace, hc]
  refine ⟨hj, hj, ?_, ?_⟩
  · obtain ⟨g, hg⟩ := philoxNew_default_isOk sba entropy
    simp [philoxJumped, hg, philoxSetState_getState g st h, hj]
  · rw [dsfmtJumpInplace, if_neg (not_lt.mpr hi)]

/-- Concrete jump-stride instance at `iter = 1` on the 4x64 state. -/
theorem philox_jump_stride_is_fixed_witness :
    philoxJumpInplace testCore 1 testState64
      = philoxAdvance testCore
          ((1 : Int) * 2 ^ (testState64.n * testState64.w / 2)) (some true)
          testState64 :=
  (philox_jump_stride_is_fixed testSba testEntropy testCore
      (fun p => p) 1 testState64 testDState (by decide) (by decide)).1

/-- C7: for non-negative `iter`, `jumped` succeeds and returns a new
instance whose state is exactly the caller's snapshot copied into a fresh
default-constructed instance and jumped in place — i.e. `jump_inplace`
applied to the caller's state; the caller's state itself is only read
(through the state getter), never written, so the original instance is
unchanged by the call. -/
theorem philox_jumped_is_pure_copy_jump
    (sba : List Nat → Nat → List Nat) (entropy : List Nat)
    (core : Nat → Nat → List Nat → List Nat → List Nat)
    (iter : Int) (st : PhiloxState) (h : PhiloxWF st) (_hi : 0 ≤ iter) :
    philoxJumped sba entropy core iter st
      = Except.ok (philoxJumpInplace core iter st) := by
  obtain ⟨g, hg⟩ := philoxNew_default_isOk sba entropy
  simp [philoxJumped, hg, philoxSetState_getState g st h]

/-- Concrete `jumped` instance at `iter = 2` on the 4x64 state. -/
theorem philox_jumped_is_pure_copy_jump_witness :
    philoxJumped testSba testEntropy testCore 2 testState64
      = Except.ok (philoxJumpInplace testCore 2 testState64) :=
  philox_jumped_is_pure_copy_jump testSba testEntropy testCore 2 testState64
    (by decide) (by decide)

/-- A successful seed always ends in `_reset_state_variables`, so the
resulting buffering fields are in their empty defaults. -/
theorem philoxSeedTrace_ok_resets (sba : List Nat → Nat → List Nat)
    (entropy : List Nat) (seed counter key : Option Int)
    (st st' : PhiloxState)
    (h : philoxSeedTrace sba entropy seed counter key st = (st', none)) :
    st'.has_uint32 = 0 ∧ st'.uinteger = 0 ∧ st'.buffer_pos = 4 ∧
    st'.buffer = List.replicate st'.n 0 := by
  unfold philoxSeedTrace at h
  repeat' split at h
  all_goals try (dsimp only [] at h)
  all_goals try (repeat' split at h)
  all_goals try (injection h with h1 h2)
  all_goals try (exact absurd h2 (Option.some_ne_none _))
  all_goals try (subst h1)
  all_goals exact ⟨rfl, rfl, rfl, rfl⟩

/-- Validation by `check_state_array` returns the array unchanged. -/
theorem philoxCheckStateArray_ok (arr : List Nat) (len w : Nat)
    (name : String) (out : List Nat)
    (h : philoxCheckStateArray arr len w name = .ok out) : out = arr := by
  unfold philoxCheckStateArray at h
  split at h
  · injection h with h1
    exact h1.symm
  · cases h

/-- A successful state-set writes the dictionary's buffering fields back
verbatim. -/
theorem philoxSetStateTrace_ok_fields (t : PhiloxState) (d : PhiloxDict)
    (s2 : PhiloxState) (h : philoxSetStateTrace t d = (s2, none)) :
    s2.has_uint32 = d.has_uint32 ∧ s2.uinteger = d.uinteger ∧
    s2.buffer_pos = d.buffer_pos ∧ s2.buffer = d.buffer := by
  unfold philoxSetStateTrace at h
  by_cases htag : d.bit_generator ≠ "Philox"
  · rw [if_pos htag] at h
    exact absurd (congrArg Prod.snd h) (Option.some_ne_none _)
  · rw [if_neg htag] at h
    dsimp only [] at h
    cases hc : philoxCheckStateArray d.counter (d.number.getD 4)
        (d.width.getD 64) "counter" with
    | error e =>
        rw [hc] at h
        exact absurd (congrArg Prod.snd h) (Option.some_ne_none _)
    | ok ctr =>
      cases hk : philoxCheckStateArray d.key (d.number.getD 4 / 2)
          (d.width.getD 64) "key" with
      | error e =>
          rw [hc, hk] at h
          exact absurd (congrArg Prod.snd h) (Option.some_ne_none _)
      | ok key =>
        cases hb : philoxCheckStateArray d.buffer (d.number.getD 4)
            (d.width.getD 64) "buffer" with
        | error e =>
            rw [hc, hk, hb] at h
            exact absurd (congrArg Prod.snd h) (Option.some_ne_none _)
        | ok buf =>
            rw [hc, hk, hb] at h
            injection h with h1 h2
            subst h1
            exact ⟨rfl, rfl, rfl, philoxCheckStateArray_ok _ _ _ _ _ hb⟩

/-- C4 (amended): after every successful `seed` the buffering fields are
in their empty defaults (`has_uint32 = 0`, `uinteger = 0`, the cursor at
the empty sentinel, a zeroed buffer); the state setter instead writes the
buffer, cursor and leftover-half fields from the supplied dictionary
verbatim, as part of the restored snapshot. -/
theorem philox_seed_resets_setstate_restores
    (sba : List Nat → Nat → List Nat) (entropy : List Nat)
    (seed counter key : Option Int) (st st' t s2 : PhiloxState)
    (d : PhiloxDict)
    (hseed : philoxSeed sba entropy seed counter key st = Except.ok st')
    (hset : philoxSetState t d = Except.ok s2) :
    (st'.has_uint32 = 0 ∧ st'.uinteger = 0 ∧ st'.buffer_pos = 4 ∧
     st'.buffer = List.replicate st'.n 0) ∧
    (s2.has_uint32 = d.has_uint32 ∧ s2.uinteger = d.uinteger ∧
     s2.buffer_pos = d.buffer_pos ∧ s2.buffer = d.buffer) := by
  constructor
  · unfold philoxSeed at hseed
    split at hseed
    next s hnone heq =>
      cases hseed
      exact philoxSeedTrace_ok_resets sba entropy seed counter key st _ heq
    next => cases hseed
  · unfold philoxSetState at hset
    split at hset
    next s hnone heq =>
      cases hset
      exact philoxSetStateTrace_ok_fields t d _ heq
    next => cases hset

/-- Concrete instance: re-seeding the mid-buffer 4x64 state resets the
buffering fields, while restoring the leftover-half snapshot carries its
`has_uint32 = 1` through. -/
theorem philox_seed_resets_setstate_restores_witness :
    (testReseeded.has_uint32 = 0 ∧ testReseeded.uinteger = 0 ∧
     testReseeded.buffer_pos = 4 ∧
     testReseeded.buffer = List.replicate testReseeded.n 0) ∧
    (testRestoredH.has_uint32 = (philoxGetState testStateH).has_uint32 ∧
     testRestoredH.uinteger = (philoxGetState testStateH).uinteger ∧
     testRestoredH.buffer_pos = (philoxGetState testStateH).buffer_pos ∧
     testRestoredH.buffer = (philoxGetState testStateH).buffer) :=
  philox_seed_resets_setstate_restores testSba testEntropy (some 5) none none
    testState64 testReseeded testState64 testRestoredH
    (philoxGetState testStateH) (by decide) (by decide)

/-- C4 counterexample: a successful state-set does not leave the
buffering fields in their defaults — restoring a snapshot whose
`has_uint32` is 1 leaves `has_uint32 = 1` on the restored instance. -/
theorem philox_setstate_keeps_leftover_counterexample :
    Except.map PhiloxState.has_uint32
        (philoxSetState testState64 (philoxGetState testStateH))
      = Except.ok 1 := by decide

/-- C5 counterexample: `advance` does not reduce `delta` modulo the
counter-state-space size `2^(n*w)`.  On a fresh 2x32 instance (state space
`2^64` counter values), advancing by `2^64` draws with `counter=False`
moves the counter, while advancing by `2^64 mod 2^64 = 0` is the
immediate-return no-op, so the two states differ: the wrap in
`Philox.advance` uses `2^(n*w + n/2)` draw-space bits, not `2^(n*w)`. -/
theorem philox_advance_state_space_counterexample :
    philoxAdvance testCore (2 ^ 64) (some false) testState32
      ≠ philoxAdvance testCore
          ((2 ^ 64 : Int) % 2 ^ (testState32.n * testState32.w))
          (some false) testState32 := by decide

/-- C5 (amended): `advance` wraps `delta` by Euclidean remainder modulo
the draw-space size `2^(n*w + n/2)` (counter states times outputs per
block), not modulo `2^(n*w)`; whenever the wrapped residue is nonzero,
`advance(delta)` and `advance(delta mod 2^(n*w + n/2))` produce identical
states, for either value of the counter flag. -/
theorem philox_advance_wraps_draw_space
    (core : Nat → Nat → List Nat → List Nat → List Nat)
    (delta : Int) (flag : Option Bool) (st : PhiloxState)
    (h : delta % (2 : Int) ^ (st.n * st.w + st.n / 2) ≠ 0) :
    philoxAdvance core delta flag st
      = philoxAdvance core (delta % (2 : Int) ^ (st.n * st.w + st.n / 2))
          flag st := by
  have hd : delta ≠ 0 := fun h0 => h (by rw [h0]; exact Int.zero_emod _)
  have hkey :
      philoxWrapInt (if flag.getD true then delta * st.n else delta)
          (st.n * st.w + st.n / 2)
        = philoxWrapInt
            (if flag.getD true then
              delta % (2 : Int) ^ (st.n * st.w + st.n / 2) * st.n
            else delta % (2 : Int) ^ (st.n * st.w + st.n / 2))
            (st.n * st.w + st.n / 2) := by
    cases flag.getD true
    · simp only [if_neg Bool.false_ne_true, philoxWrapInt]
      rw [Int.emod_emod_of_dvd _ dvd_rfl]
    · simp only [eq_self_iff_true, if_true, philoxWrapInt]
      rw [philoxIntEmodMulLeft]
  simp only [philoxAdvance]
  rw [if_neg hd, if_neg h, hkey]

/-- Concrete wrap instance: on the fresh 2x32 state, advancing by
`2^65 + 6` draws equals advancing by its residue 6. -/
theorem philox_advance_wraps_draw_space_witness :
    philoxAdvance testCore (2 ^ 65 + 6) (some false) testState32
      = philoxAdvance testCore
          ((2 ^ 65 + 6 : Int) %
            (2 : Int) ^ (testState32.n * testState32.w + testState32.n / 2))
          (some false) testState32 :=
  philox_advance_wraps_draw_space testCore (2 ^ 65 + 6) (some false)
    testState32 (by decide)

/-- C6 counterexample: `advance` with `delta = 0` returns before touching
any field — with a cached leftover half, `advance(0, counter=False)`
leaves `has_uint32 = 1` and `uinteger = 99`. -/
theorem philox_advance_zero_keeps_leftover_counterexample :
    (philoxAdvance testCore 0 (some false) testStateH).has_uint32 = 1 ∧
    (philoxAdvance testCore 0 (some false) testStateH).uinteger = 99 := by
  decide

/-- C6 (amended): for every nonzero `delta` and every value of the
counter flag (including the omitted default), `advance` leaves the
generator with `has_uint32 = 0` and `uinteger = 0`; with `delta = 0` the
call returns the instance untouched. -/
theorem philox_advance_nonzero_clears_leftover
    (core : Nat → Nat → List Nat → List Nat → List Nat)
    (delta : Int) (flag : Option Bool) (st : PhiloxState)
    (h : delta ≠ 0) :
    (philoxAdvance core delta flag st).has_uint32 = 0 ∧
    (philoxAdvance core delta flag st).uinteger = 0 := by
  simp only [philoxAdvance, if_neg h]
  cases hc : flag.getD true <;>
    simp [philoxResetStateVariables]

/-- Concrete clearing instance: advancing the leftover-half state by five
draws clears both leftover fields. -/
theorem philox_advance_nonzero_clears_leftover_witness :
    (philoxAdvance testCore 5 (some false) testStateH).has_uint32 = 0 ∧
    (philoxAdvance testCore 5 (some false) testStateH).uinteger = 0 :=
  philox_advance_nonzero_clears_leftover testCore 5 (some false) testStateH
    (by decide)

/-- A value accepted by `object_to_int` lies below `2^bits` (the absent
default 0 as well). -/
theorem philoxObjectToInt_ok_lt (x : Option Int) (bits : Nat)
    (name : String) (oi : Option Nat)
    (h : philoxObjectToInt x bits name = .ok oi) : oi.getD 0 < 2 ^ bits := by
  cases x with
  | none =>
      simp only [philoxObjectToInt] at h
      injection h with h1
      subst h1
      show (0 : Nat) < 2 ^ bits
      positivity
  | some v =>
      simp only [philoxObjectToInt] at h
      by_cases h0 : v < 0
      · rw [if_pos h0] at h; cases h
      · rw [if_neg h0] at h
        by_cases hb : (2 ^ bits : Int) ≤ v
        · rw [if_pos hb] at h; cases h
        · rw [if_neg hb] at h
          injection h with h1
          subst h1
          show v.toNat < 2 ^ bits
          have hcast : ((2 ^ bits : Nat) : Int) = (2 ^ bits : Int) := by
            push_cast
            rfl
          omega

/-- Expansion by `int_to_array` succeeds whenever the value is within the
bit bound. -/
theorem philoxIntToArray_ok_of_lt (v b w : Nat) (name : String)
    (h : v < 2 ^ b) :
    philoxIntToArray v (some b) w name
      = .ok (philoxToWords w (b / w) v) := by
  simp only [philoxIntToArray]
  rw [if_pos h]

/-- Every `ValueError` that `seed` can raise is raised before any field is
written: the three `object_to_int` range checks and the seed/key
exclusivity check precede all writes, and the late counter expansion
cannot fail because `object_to_int` has already bounded the counter. -/
theorem philoxSeedTrace_error_frame (sba : List Nat → Nat → List Nat)
    (entropy : List Nat) (seed counter key : Option Int)
    (st : PhiloxState) (msg : String)
    (h : (philoxSeedTrace sba entropy seed counter key st).2 = some msg) :
    (philoxSeedTrace sba entropy seed counter key st).1 = st := by
  simp only [philoxSeedTrace] at h ⊢
  cases hs : philoxObjectToInt seed (st.n * st.w / 2) "seed" with
  | error e => rfl
  | ok seedI =>
    rw [hs] at h
    try dsimp only [] at h ⊢
    cases hk : philoxObjectToInt key (st.n / 2 * st.w) "key" with
    | error e => rfl
    | ok keyI =>
      rw [hk] at h
      try dsimp only [] at h ⊢
      cases hc : philoxObjectToInt counter (st.n * st.w) "counter" with
      | error e => rfl
      | ok counterI =>
        rw [hc] at h
        try dsimp only [] at h ⊢
        by_cases hex : seedI.isSome = true ∧ keyI.isSome = true
        · rw [if_pos hex] at h ⊢
        · rw [if_neg hex] at h ⊢
          try dsimp only [] at h ⊢
          have hcnt := philoxObjectToInt_ok_lt counter (st.n * st.w)
            "counter" counterI hc
          cases keyI with
          | some k =>
            try dsimp only [] at h ⊢
            cases hk2 : philoxIntToArray k (some (st.n / 2 * st.w)) st.w
                "key" with
            | error e => rfl
            | ok kws =>
                rw [hk2] at h
                try dsimp only [] at h ⊢
                rw [philoxIntToArray_ok_of_lt _ _ _ _ hcnt] at h
                exact Option.noConfusion h
          | none =>
            cases seedI with
            | some s =>
                try dsimp only [] at h ⊢
                rw [philoxIntToArray_ok_of_lt _ _ _ _ hcnt] at h
                exact Option.noConfusion h
            | none =>
                try dsimp only [] at h ⊢
                rw [philoxIntToArray_ok_of_lt _ _ _ _ hcnt] at h
                exact Option.noConfusion h

/-- C8 counterexample: a state-set rejected for an out-of-range counter
array leaves `number`, `width` (and the dispatch table) already
re-written — a partial mutation observable after the failed call.  The
2x32 instance ends the failing call with `number = 4, width = 64`. -/
theorem philox_setstate_error_partial_mutation_counterexample :
    (philoxSetStateTrace testState32 testBadDict).2.isSome = true ∧
    (philoxSetStateTrace testState32 testBadDict).1.n = 4 ∧
    (philoxSetStateTrace testState32 testBadDict).1.w = 64 ∧
    testState32.n = 2 ∧ testState32.w = 32 := by decide

/-- C8 (amended): every validation error raised by `seed` is raised
synchronously before any field is written, so the state at the moment of
the raise is exactly the prior state; a failing state-set, by contrast,
has already written `number`/`width`/dispatch, though the payload arrays,
cursor and leftover-half fields are still the prior ones. -/
theorem philox_seed_error_no_mutation (sba : List Nat → Nat → List Nat)
    (entropy : List Nat) (seed counter key : Option Int)
    (st t : PhiloxState) (d : PhiloxDict) (msg msg2 : String)
    (hseed : (philoxSeedTrace sba entropy seed counter key st).2 = some msg)
    (hset : (philoxSetStateTrace t d).2 = some msg2) :
    (philoxSeedTrace sba entropy seed counter key st).1 = st ∧
    ((philoxSetStateTrace t d).1.ctr = t.ctr ∧
     (philoxSetStateTrace t d).1.key = t.key ∧
     (philoxSetStateTrace t d).1.buffer = t.buffer ∧
     (philoxSetStateTrace t d).1.buffer_pos = t.buffer_pos ∧
     (philoxSetStateTrace t d).1.has_uint32 = t.has_uint32 ∧
     (philoxSetStateTrace t d).1.uinteger = t.uinteger) := by
  refine ⟨philoxSeedTrace_error_frame sba entropy seed counter key st msg
    hseed, ?_⟩
  unfold philoxSetStateTrace at hset ⊢
  by_cases htag : d.bit_generator ≠ "Philox"
  · rw [if_pos htag]
    exact ⟨rfl, rfl, rfl, rfl, rfl, rfl⟩
  · rw [if_neg htag] at hset ⊢
    dsimp only [] at hset ⊢
    cases hc : philoxCheckStateArray d.counter (d.number.getD 4)
        (d.width.getD 64) "counter" with
    | error e => exact ⟨rfl, rfl, rfl, rfl, rfl, rfl⟩
    | ok ctr =>
      rw [hc] at hset
      cases hk : philoxCheckStateArray d.key (d.number.getD 4 / 2)
          (d.width.getD 64) "key" with
      | error e => exact ⟨rfl, rfl, rfl, rfl, rfl, rfl⟩
      | ok key =>
        rw [hk] at hset
        cases hb : philoxCheckStateArray d.buffer (d.number.getD 4)
            (d.width.getD 64) "buffer" with
        | error e => exact ⟨rfl, rfl, rfl, rfl, rfl, rfl⟩
        | ok buf =>
            rw [hb] at hset
            exact Option.noConfusion hset

/-- Concrete instance: seeding with the negative scalar -3 fails and
leaves the 4x64 state untouched; the bad-counter state-set fails and
leaves the 2x32 payload fields untouched (its `number`/`width` are
already re-written, as the counterexample shows). -/
theorem philox_seed_error_no_mutation_witness :
    (philoxSeedTrace testSba testEntropy (some (-3)) none none
        testState64).1 = testState64 ∧
    ((philoxSetStateTrace testState32 testBadDict).1.ctr
        = testState32.ctr ∧
     (philoxSetStateTrace testState32 testBadDict).1.key
        = testState32.key ∧
     (philoxSetStateTrace testState32 testBadDict).1.buffer
        = testState32.buffer ∧
     (philoxSetStateTrace testState32 testBadDict).1.buffer_pos
        = testState32.buffer_pos ∧
     (philoxSetStateTrace testState32 testBadDict).1.has_uint32
        = testState32.has_uint32 ∧
     (philoxSetStateTrace testState32 testBadDict).1.uinteger
        = testState32.uinteger) :=
  philox_seed_error_no_mutation testSba testEntropy (some (-3)) none none
    testState64 testState32 testBadDict "seed out of range"
    "counter state array invalid" (by decide) (by decide)

/-- C9 counterexample: Philox's `jump_inplace` accepts a negative `iter`
without raising — `jump(-1)` on the fresh 2x32 state wraps the implied
delta and lands on counter value `2^64 - 2^32`, returning normally where
the claim requires a `ValueError`. -/
theorem philox_jump_negative_no_error_counterexample :
    (philoxJumpInplace testCore (-1) testState32).ctr
      = [0, 4294967295] := by decide

/-- C9 (amended): DSFMT's `jump_inplace` raises a `ValueError` for every
negative `iter`; Philox's `jump_inplace` performs no such check — it is
total, reducing to `advance` with the (wrapped) delta
`iter * 2^((w*n)/2)` for every integer `iter`. -/
theorem dsfmt_jump_negative_raises_philox_wraps
    (core : Nat → Nat → List Nat → List Nat → List Nat)
    (dj : List Nat × Nat → List Nat × Nat) (iter : Int)
    (st : PhiloxState) (dst : DSFMTState) (h : iter < 0) :
    dsfmtJumpInplace dj iter dst = .error "iter must be positive" ∧
    philoxJumpInplace core iter st
      = philoxAdvance core (iter * 2 ^ ((st.w * st.n) / 2)) (some true)
          st := by
  constructor
  · rw [dsfmtJumpInplace, if_pos h]
  · rfl

/-- Concrete instance at `iter = -1`. -/
theorem dsfmt_jump_negative_raises_philox_wraps_witness :
    dsfmtJumpInplace (fun p => p) (-1) testDState
      = .error "iter must be positive" ∧
    philoxJumpInplace testCore (-1) testState32
      = philoxAdvance testCore
          ((-1 : Int) * 2 ^ ((testState32.w * testState32.n) / 2))
          (some true) testState32 :=
  dsfmt_jump_negative_raises_philox_wraps testCore (fun p => p) (-1)
    testState32 testDState (by decide)

/-- C10 counterexample: a tag-correct dictionary with `number = 3` and
`width` omitted passes the setter's array checks (3-element counter and
buffer, 1-element key), so the call succeeds — but `_setup_generator`
has no branch for `(3, 64)` and the previous 2x32 dispatch table stays
installed: the table is not re-resolved to match the resulting pair. -/
theorem philox_setstate_unresolved_dispatch_counterexample :
    Except.map (fun s => (s.n, s.w, s.variant))
        (philoxSetState testState32 testDict3)
      = Except.ok (3, 64, some PhiloxVariant.v2x32) ∧
    philoxResolve 3 64 = none := by decide

/-- The configuration a successful state-set leaves behind: `number` and
`width` default to 4 and 64 when omitted, and the dispatch table is the
resolution of the resulting pair when one exists, the previous table
otherwise. -/
theorem philoxSetStateTrace_ok_config (t : PhiloxState) (d : PhiloxDict)
    (s2 : PhiloxState) (h : philoxSetStateTrace t d = (s2, none)) :
    s2.n = d.number.getD 4 ∧ s2.w = d.width.getD 64 ∧
    s2.variant = (philoxResolve (d.number.getD 4) (d.width.getD 64)).orElse
      (fun _ => t.variant) := by
  unfold philoxSetStateTrace at h
  by_cases htag : d.bit_generator ≠ "Philox"
  · rw [if_pos htag] at h
    exact absurd (congrArg Prod.snd h) (Option.some_ne_none _)
  · rw [if_neg htag] at h
    dsimp only [] at h
    cases hc : philoxCheckStateArray d.counter (d.number.getD 4)
        (d.width.getD 64) "counter" with
    | error e =>
        rw [hc] at h
        exact absurd (congrArg Prod.snd h) (Option.some_ne_none _)
    | ok ctr =>
      cases hk : philoxCheckStateArray d.key (d.number.getD 4 / 2)
          (d.width.getD 64) "key" with
      | error e =>
          rw [hc, hk] at h
          exact absurd (congrArg Prod.snd h) (Option.some_ne_none _)
      | ok key =>
        cases hb : philoxCheckStateArray d.buffer (d.number.getD 4)
            (d.width.getD 64) "buffer" with
        | error e =>
            rw [hc, hk, hb] at h
            exact absurd (congrArg Prod.snd h) (Option.some_ne_none _)
        | ok buf =>
            rw [hc, hk, hb] at h
            injection h with h1 h2
            subst h1
            exact ⟨rfl, rfl, rfl⟩

/-- C10 (amended): a successful state-set defaults an omitted `number` to
4 and an omitted `width` to 64, and whenever the resulting pair is a
supported combination (`number ∈ {2,4}`, `width ∈ {32,64}` — in
particular whenever the keys are omitted) the dispatch table is
re-resolved to match it before the payload is written; an unsupported
pair instead leaves the previous table installed. -/
theorem philox_setstate_defaults_and_dispatch (t : PhiloxState)
    (d : PhiloxDict) (s2 : PhiloxState)
    (hn : d.number.getD 4 = 2 ∨ d.number.getD 4 = 4)
    (hw : d.width.getD 64 = 32 ∨ d.width.getD 64 = 64)
    (h : philoxSetState t d = Except.ok s2) :
    s2.n = d.number.getD 4 ∧ s2.w = d.width.getD 64 ∧
    s2.variant = philoxResolve s2.n s2.w := by
  have htrace : philoxSetStateTrace t d = (s2, none) := by
    unfold philoxSetState at h
    split at h
    next s hnone heq =>
      injection h with h1
      rw [← h1]
      exact heq
    next => cases h
  obtain ⟨h1, h2, h3⟩ := philoxSetStateTrace_ok_config t d s2 htrace
  obtain ⟨v, hv⟩ := philoxResolve_total _ _ hn hw
  refine ⟨h1, h2, ?_⟩
  rw [h1, h2, h3, hv]
  rfl

/-- Concrete instance: restoring the 4x64 snapshot with both `number` and
`width` keys omitted onto the 2x32 instance yields `number = 4`,
`width = 64` and the 4x64 dispatch table. -/
theorem philox_setstate_defaults_and_dispatch_witness :
    testRestoredDefaults.n = testDictDefaults.number.getD 4 ∧
    testRestoredDefaults.w = testDictDefaults.width.getD 64 ∧
    testRestoredDefaults.variant
      = philoxResolve testRestoredDefaults.n testRestoredDefaults.w :=
  philox_setstate_defaults_and_dispatch testState32 testDictDefaults
    testRestoredDefaults (by decide) (by decide) (by decide)

example : philoxWordsToNat 32 [5, 3] = 5 + 3 * 2 ^ 32 := by decide
example : philoxToWords 32 2 (5 + 3 * 2 ^ 32) = [5, 3] := by decide
example : philoxResolve 4 64 = some .v4x64 := by decide
example : philoxResolve 3 64 = none := by decide
example : philoxMinWords64 0 = [0] := by decide
example : philoxWrapInt (-1) 4 = 15 := by decide
